import Mathlib

/-!
Formal model of the `wasm-game-of-life` web driver (`src/www/index.js`) and of
the Game-of-Life grid engine it drives.

The driver's handlers are embedded as pure state-transition functions that also
return the list of engine/canvas calls they perform, in order.  The Rust engine
itself (the `Universe` behind the wasm boundary) is not part of the repository
snapshot, so its operations (`tick`, `toggle_cell`, `kill_universe`) are
modelled from the specification and marked as such in their doc comments.
-/

/-- One grid cell: dead or alive.  The JS side compares buffer entries against
`Cell.Dead`, so the two values only need to be distinguishable. -/
inductive Cell where
  | Dead : Cell
  | Alive : Cell
deriving DecidableEq, Repr

/-- Modelled from the spec: the Rust `Universe` (the Grid Engine) is not under
`src/`.  It owns fixed `width` and `height` and a dense row-major cell buffer
of length `width * height`, indexed by `row * width + column`. -/
structure Universe where
  width : Nat
  height : Nat
  cells : List Cell
deriving DecidableEq, Repr

/-- A well-formed grid: positive dimensions and a buffer of exactly
`width * height` cells. -/
def Universe.wellFormed (u : Universe) : Prop :=
  0 < u.width ∧ 0 < u.height ∧ u.cells.length = u.width * u.height

instance (u : Universe) : Decidable u.wellFormed :=
  decidable_of_iff (0 < u.width ∧ 0 < u.height ∧ u.cells.length = u.width * u.height) Iff.rfl

/-- Read the cell stored at `(row, col)` in the row-major buffer. -/
def getCell (u : Universe) (row col : Nat) : Cell :=
  u.cells.getD (row * u.width + col) Cell.Dead

/-- Modelled from the spec: toroidal wrap of a neighbor index — the offset
index is reduced modulo the dimension, so `-1` wraps to `m - 1` and `m` wraps
to `0`. -/
def wrapIdx (i : Int) (m : Nat) : Nat :=
  (i % (m : Int)).toNat

/-- The eight neighbor offsets (orthogonal and diagonal). -/
def neighborOffsets : List (Int × Int) :=
  [(-1, -1), (-1, 0), (-1, 1), (0, -1), (0, 1), (1, -1), (1, 0), (1, 1)]

/-- Numeric contribution of a cell to a neighbor count. -/
def cellScore : Cell → Nat
  | Cell.Dead => 0
  | Cell.Alive => 1

/-- Modelled from the spec: number of live cells among the 8 toroidally
wrapped neighbors of `(row, col)`. -/
def liveNeighborCount (u : Universe) (row col : Nat) : Nat :=
  (neighborOffsets.map fun d =>
    cellScore (getCell u (wrapIdx ((row : Int) + d.1) u.height)
                         (wrapIdx ((col : Int) + d.2) u.width))).sum

/-- Conway's B3/S23 transition for one cell given its live-neighbor count. -/
def nextCell : Cell → Nat → Cell
  | Cell.Alive, n => if n = 2 ∨ n = 3 then Cell.Alive else Cell.Dead
  | Cell.Dead, n => if n = 3 then Cell.Alive else Cell.Dead

/-- Modelled from the spec: `tick` (the engine's `step()`) computes every
cell of the next generation from the previous generation's buffer and replaces
the whole buffer at once. -/
def tick (u : Universe) : Universe :=
  { u with cells :=
      (List.range u.height).flatMap fun row =>
        (List.range u.width).map fun col =>
          nextCell (getCell u row col) (liveNeighborCount u row col) }

/-- Error taxonomy of the engine's fallible operations. -/
inductive GolError where
  | OutOfBounds : GolError
deriving DecidableEq, Repr

/-- Flip one cell value. -/
def cellFlip : Cell → Cell
  | Cell.Dead => Cell.Alive
  | Cell.Alive => Cell.Dead

/-- Modelled from the spec: `toggle_cell(row, column)` flips exactly the
addressed cell; a coordinate outside `[0, height) × [0, width)` fails with
`OutOfBounds` and leaves the buffer untouched. -/
def toggleCell (u : Universe) (row col : Int) : Except GolError Universe :=
  if 0 ≤ row ∧ row < (u.height : Int) ∧ 0 ≤ col ∧ col < (u.width : Int) then
    let idx := row.toNat * u.width + col.toNat
    Except.ok { u with cells := u.cells.set idx (cellFlip (u.cells.getD idx Cell.Dead)) }
  else
    Except.error GolError.OutOfBounds

/-- Modelled from the spec: `kill_universe` (the engine's `clear()`) sets every
cell to Dead in place without changing the dimensions. -/
def killUniverse (u : Universe) : Universe :=
  { u with cells := u.cells.map fun _ => Cell.Dead }

/-- The grid as seen after an in-place toggle: the toggled grid when the
coordinates are in bounds, the unchanged grid when the call failed. -/
def applyToggle (u : Universe) (row col : Int) : Universe :=
  match toggleCell u row col with
  | Except.ok u2 => u2
  | Except.error _ => u

/-- `index.js` line 4: size of one cell square in pixels. -/
def CELL_SIZE : Nat := 5

/-- `index.js` line 6. -/
def DEAD_COLOR : String := "#FFFFFF"

/-- `index.js` line 7. -/
def ALIVE_COLOR : String := "#000000"

/-- `index.js` line 18: canvas width in device pixels. -/
def canvasWidthPx (w0 : Nat) : Nat := (CELL_SIZE + 1) * w0 + 1

/-- `index.js` line 17: canvas height in device pixels. -/
def canvasHeightPx (h0 : Nat) : Nat := (CELL_SIZE + 1) * h0 + 1

/-- `index.js` lines 133-135: row-major index into the cell buffer, using the
captured startup `width`. -/
def getIndex (width row column : Nat) : Nat :=
  row * width + column

/-- `index.js` line 141: the `Uint8Array` view over wasm memory reads exactly
`len` entries starting at the buffer pointer. -/
def readCellsView (mem : List Cell) (len : Nat) : List Cell :=
  mem.take len

/-- One `ctx.fillRect` call together with the `fillStyle` in force. -/
structure FillRect where
  x : Nat
  y : Nat
  w : Nat
  h : Nat
  fillStyle : String
deriving DecidableEq, Repr

/-- `index.js` lines 143-160: the nested row/column loops of `drawCells`,
producing one filled rectangle per cell; the fill style is the dead color
exactly when the buffer entry equals `Cell.Dead`, the alive color otherwise. -/
def drawCellsRects (width height : Nat) (view : List Cell) : List FillRect :=
  (List.range height).flatMap fun row =>
    (List.range width).map fun col =>
      { x := col * (CELL_SIZE + 1) + 1
        y := row * (CELL_SIZE + 1) + 1
        w := CELL_SIZE
        h := CELL_SIZE
        fillStyle :=
          if view.getD (getIndex width row col) Cell.Dead = Cell.Dead then DEAD_COLOR
          else ALIVE_COLOR }

/-- `index.js` lines 137-163: `drawCells` reads a fresh `width * height` view of
the universe's buffer (with the startup-captured `w0`, `h0`) and draws it. -/
def drawCellsOf (w0 h0 : Nat) (u : Universe) : List FillRect :=
  drawCellsRects w0 h0 (readCellsView u.cells (w0 * h0))

/-- `index.js` line 36: button text while paused. -/
def playGlyph : String := "▶"

/-- `index.js` line 31: button text while playing. -/
def pauseGlyph : String := "⏸"

/-- The driver's mutable module-level state: the current universe binding, the
pending animation-frame id, the play/pause button text, and the ticks-per-frame
slider value. -/
structure DriverState where
  univ : Universe
  animationId : Option Nat
  playPauseText : String
  ticksPerFrame : Nat
deriving DecidableEq, Repr

/-- `index.js` lines 24-26: paused exactly when no animation frame is pending. -/
def isPaused (st : DriverState) : Bool :=
  st.animationId.isNone

/-- One engine or canvas call performed by a handler, in program order. -/
inductive Event where
  | tickCall : Event
  | toggleCall : Int → Int → Event
  | killCall : Event
  | randomUniverseCall : Event
  | drawGridCall : Event
  | drawCellsCall : Universe → Event
  | cancelFrameCall : Option Nat → Event
  | requestFrameCall : Event
  | widthQueryCall : Event
  | heightQueryCall : Event
  | setTextCall : String → Event
deriving DecidableEq, Repr

/-- `index.js` lines 35-39: `pause` sets the play glyph, cancels the pending
frame and clears `animationId`. -/
def pauseOp (st : DriverState) : DriverState × List Event :=
  ({ st with playPauseText := playGlyph, animationId := Option.none },
   [Event.setTextCall playGlyph, Event.cancelFrameCall st.animationId])

/-- `index.js` lines 10-12: startup captures `width` and `height` from the
initial universe, once each. -/
def startup (u0 : Universe) : (Nat × Nat) × List Event :=
  ((u0.width, u0.height), [Event.widthQueryCall, Event.heightQueryCall])

/-- `index.js` line 53: `ticksPerFrame` starts at 1. -/
def initialState (u0 : Universe) : DriverState :=
  { univ := u0, animationId := Option.none, playPauseText := "", ticksPerFrame := 1 }

/-- `index.js` lines 55-58: the slider input handler stores the slider value. -/
def updateTicks (v : Nat) (st : DriverState) : DriverState :=
  { st with ticksPerFrame := v }

/-- `index.js` lines 65-69: the reset handler rebinds `universe` to a freshly
constructed `Universe.random_universe()` (passed here as `fresh`), then redraws
grid and cells. -/
def resetClick (fresh : Universe) (st : DriverState) : DriverState × List Event :=
  ({ st with univ := fresh },
   [Event.randomUniverseCall, Event.drawGridCall, Event.drawCellsCall fresh])

/-- `index.js` lines 74-79: the kill handler pauses, clears the universe via
`kill_universe()`, then redraws grid and cells. -/
def killClick (st : DriverState) : DriverState × List Event :=
  let p := pauseOp st
  let u2 := killUniverse p.1.univ
  ({ p.1 with univ := u2 },
   p.2 ++ [Event.killCall, Event.drawGridCall, Event.drawCellsCall u2])

/-- `index.js` line 85: horizontal device-pixel scale of the canvas. -/
def scaleXOf (w0 : Nat) (rectW : ℚ) : ℚ :=
  (canvasWidthPx w0 : ℚ) / rectW

/-- `index.js` line 86: vertical device-pixel scale of the canvas. -/
def scaleYOf (h0 : Nat) (rectH : ℚ) : ℚ :=
  (canvasHeightPx h0 : ℚ) / rectH

/-- `index.js` line 88: click x-offset scaled into canvas coordinates. -/
def canvasLeftOf (w0 : Nat) (clientX rectLeft rectW : ℚ) : ℚ :=
  (clientX - rectLeft) * scaleXOf w0 rectW

/-- `index.js` line 89: click y-offset scaled into canvas coordinates. -/
def canvasTopOf (h0 : Nat) (clientY rectTop rectH : ℚ) : ℚ :=
  (clientY - rectTop) * scaleYOf h0 rectH

/-- `index.js` line 91: row of a click — floor division by the cell pitch,
clamped to `height - 1`. -/
def clickRow (h0 : Nat) (canvasTop : ℚ) : Int :=
  min ((canvasTop / ((CELL_SIZE : ℚ) + 1)).floor) ((h0 : Int) - 1)

/-- `index.js` line 92: column of a click — floor division by the cell pitch,
clamped to `width - 1`. -/
def clickCol (w0 : Nat) (canvasLeft : ℚ) : Int :=
  min ((canvasLeft / ((CELL_SIZE : ℚ) + 1)).floor) ((w0 : Int) - 1)

/-- `index.js` lines 82-98: the canvas click handler translates the click to a
`(row, col)` pair, toggles that cell, and redraws grid and cells. -/
def canvasClick (w0 h0 : Nat) (clientX clientY rectLeft rectTop rectW rectH : ℚ)
    (st : DriverState) : DriverState × List Event :=
  let row := clickRow h0 (canvasTopOf h0 clientY rectTop rectH)
  let col := clickCol w0 (canvasLeftOf w0 clientX rectLeft rectW)
  let u2 := applyToggle st.univ row col
  ({ st with univ := u2 },
   [Event.toggleCall row col, Event.drawGridCall, Event.drawCellsCall u2])

/-- `index.js` lines 100-112: the render loop ticks the universe
`ticksPerFrame` times, then draws the grid and the cells once, then schedules
the next frame. -/
def renderLoop (frameId : Nat) (st : DriverState) : DriverState × List Event :=
  let u2 := tick^[st.ticksPerFrame] st.univ
  ({ st with univ := u2, animationId := some frameId },
   List.replicate st.ticksPerFrame Event.tickCall ++
     [Event.drawGridCall, Event.drawCellsCall u2, Event.requestFrameCall])

/-- Draw events of the trace vocabulary. -/
def isDrawEvent : Event → Bool
  | Event.drawGridCall => true
  | Event.drawCellsCall _ => true
  | _ => false

/-- Universe-mutating events of the trace vocabulary. -/
def isMutationEvent : Event → Bool
  | Event.tickCall => true
  | Event.toggleCall _ _ => true
  | Event.killCall => true
  | Event.randomUniverseCall => true
  | _ => false

/-- A trace whose universe mutations all happen before any drawing. -/
def mutationsPrecedeDraws (t : List Event) : Prop :=
  ∃ a b, t = a ++ b ∧ (∀ e ∈ a, isDrawEvent e = false) ∧
    (∀ e ∈ b, isMutationEvent e = false)

/-- The spec's wrap policy spelled literally: an index of `-1` maps to `m - 1`
and an index of `m` maps to `0`; in-range indices are unchanged. -/
def wrapSpec (i : Int) (m : Nat) : Int :=
  if i < 0 then i + m else if (m : Int) ≤ i then i - m else i

/-- Live-neighbor count phrased the way the claim states it: the eight adjacent
offsets, each wrapped by the edge-to-opposite-edge rule `wrapSpec`. -/
def liveNeighborCountSpec (u : Universe) (row col : Nat) : Nat :=
  (neighborOffsets.map fun d =>
    cellScore (getCell u (wrapSpec ((row : Int) + d.1) u.height).toNat
                         (wrapSpec ((col : Int) + d.2) u.width).toNat)).sum

/-- The translation of a click exactly as C6 words it: scale to canvas
coordinates and divide by the cell pitch — with no clamping. -/
def divRowOf (h0 : Nat) (clientY rectTop rectH : ℚ) : Int :=
  ((canvasTopOf h0 clientY rectTop rectH) / ((CELL_SIZE : ℚ) + 1)).floor

/-- Column analogue of `divRowOf`: unclamped scale-and-divide translation. -/
def divColOf (w0 : Nat) (clientX rectLeft rectW : ℚ) : Int :=
  ((canvasLeftOf w0 clientX rectLeft rectW) / ((CELL_SIZE : ℚ) + 1)).floor

/-- A 3×3 blinker, the canonical fixture from the spec's testable properties. -/
def blinker : Universe :=
  { width := 3, height := 3,
    cells := [Cell.Dead, Cell.Dead, Cell.Dead,
              Cell.Alive, Cell.Alive, Cell.Alive,
              Cell.Dead, Cell.Dead, Cell.Dead] }

/-- A small concrete 2×2 universe for witness states. -/
def u2x2 : Universe :=
  { width := 2, height := 2,
    cells := [Cell.Dead, Cell.Alive, Cell.Dead, Cell.Dead] }

/-- A concrete driver state used by witnesses and counterexamples. -/
def st0 : DriverState := initialState u2x2

/-- Nested row/column iteration in row-major order equals iteration over the
flat index range. -/
lemma range_flatMap_eq_rowMajor {α : Type} (w : Nat) (f : Nat → Nat → α) :
    ∀ h : Nat, (List.range h).flatMap (fun r => (List.range w).map (f r)) =
      (List.range (h * w)).map (fun i => f (i / w) (i % w)) := by
  intro h
  induction h with
  | zero => simp
  | succ n ih =>
    rw [List.range_succ, List.flatMap_append, ih]
    have h2 : (n + 1) * w = n * w + w := by ring
    rw [h2, List.range_add, List.map_append, List.map_map]
    congr 1
    · simp only [List.flatMap_cons, List.flatMap_nil, List.append_nil]
      apply List.map_congr_left
      intro j hj
      have hjw : j < w := List.mem_range.mp hj
      have hw : 0 < w := Nat.lt_of_le_of_lt (Nat.zero_le j) hjw
      have hsum : n * w + j = j + w * n := by ring
      simp only [Function.comp]
      rw [hsum, Nat.add_mul_div_left j n hw, Nat.div_eq_of_lt hjw,
        Nat.add_mul_mod_self_left, Nat.mod_eq_of_lt hjw, Nat.zero_add]

/-- Flat row-major index of an in-bounds `(r, c)` pair is in range. -/
lemma rowMajor_idx_lt (r c w h : Nat) (hr : r < h) (hc : c < w) :
    r * w + c < h * w := by
  have h1 : r * w + c < r * w + w := Nat.add_lt_add_left hc _
  have h2 : r * w + w = (r + 1) * w := by ring
  have h3 : (r + 1) * w ≤ h * w := Nat.mul_le_mul_right w hr
  exact Nat.lt_of_lt_of_le (h2 ▸ h1) h3

/-- The element at flat index `r * w + c` of a nested row-major iteration is
the value for row `r`, column `c`. -/
lemma rowMajor_getD {α : Type} (h w r c : Nat) (f : Nat → Nat → α) (d : α)
    (hr : r < h) (hc : c < w) :
    ((List.range h).flatMap (fun i => (List.range w).map (f i))).getD (r * w + c) d = f r c := by
  rw [range_flatMap_eq_rowMajor]
  have hlt : r * w + c < h * w := rowMajor_idx_lt r c w h hr hc
  have hw : 0 < w := Nat.lt_of_le_of_lt (Nat.zero_le c) hc
  rw [List.getD_eq_getElem _ _ (by simpa using hlt)]
  simp only [List.getElem_map, List.getElem_range]
  have hsum : r * w + c = c + w * r := by ring
  rw [hsum, Nat.add_mul_div_left c r hw, Nat.div_eq_of_lt hc,
    Nat.add_mul_mod_self_left, Nat.mod_eq_of_lt hc, Nat.zero_add]

/-- Length of a nested row-major iteration. -/
lemma rowMajor_length {α : Type} (h w : Nat) (f : Nat → Nat → α) :
    ((List.range h).flatMap (fun i => (List.range w).map (f i))).length = h * w := by
  rw [range_flatMap_eq_rowMajor]
  simp

/-- For an offset index in `[-1, m]` with `0 < m`, reduction modulo `m` agrees
with the spec's edge-to-opposite-edge wrap. -/
lemma wrapIdx_eq_wrapSpec (i : Int) (m : Nat) (hm : 0 < m) (h1 : -1 ≤ i) (h2 : i ≤ m) :
    (wrapIdx i m : Int) = wrapSpec i m := by
  have hm' : (0 : Int) < m := by exact_mod_cast hm
  unfold wrapIdx wrapSpec
  by_cases hneg : i < 0
  · have e1 : (i + (m : Int) * 1) % (m : Int) = i % (m : Int) :=
      Int.add_mul_emod_self_left i (m : Int) 1
    rw [mul_one] at e1
    have e2 : (i + (m : Int)) % (m : Int) = i + m :=
      Int.emod_eq_of_lt (by omega) (by omega)
    rw [← e1, e2, if_pos hneg]
    omega
  · by_cases hge : (m : Int) ≤ i
    · have hi : i = m := by omega
      rw [if_neg hneg, if_pos hge, hi]
      rw [Int.emod_self]
      omega
    · have e : i % (m : Int) = i := Int.emod_eq_of_lt (by omega) (by omega)
      rw [if_neg hneg, if_neg hge, e]
      omega

/-- `wrapIdx` as the natural number extracted from `wrapSpec`. -/
lemma wrap_toNat (i : Int) (m : Nat) (hm : 0 < m) (h1 : -1 ≤ i) (h2 : i ≤ m) :
    wrapIdx i m = (wrapSpec i m).toNat := by
  have := wrapIdx_eq_wrapSpec i m hm h1 h2
  omega

/-- Components of every neighbor offset lie in `[-1, 1]`. -/
lemma neighborOffsets_bounds (d : Int × Int) (hd : d ∈ neighborOffsets) :
    -1 ≤ d.1 ∧ d.1 ≤ 1 ∧ -1 ≤ d.2 ∧ d.2 ≤ 1 := by
  fin_cases hd <;> norm_num

/-- For an in-bounds cell the modular neighbor count equals the count phrased
with the spec's wrap rule. -/
lemma liveNeighborCount_eq_spec (u : Universe) (row col : Nat)
    (hw : 0 < u.width) (hh : 0 < u.height) (hr : row < u.height) (hc : col < u.width) :
    liveNeighborCount u row col = liveNeighborCountSpec u row col := by
  unfold liveNeighborCount liveNeighborCountSpec
  congr 1
  apply List.map_congr_left
  intro d hd
  obtain ⟨hd1, hd2, hd3, hd4⟩ := neighborOffsets_bounds d hd
  rw [wrap_toNat ((row : Int) + d.1) u.height hh (by omega) (by omega),
    wrap_toNat ((col : Int) + d.2) u.width hw (by omega) (by omega)]

/-- Reading a cell of the next generation applies the transition rule to the
previous generation at that position. -/
lemma getCell_tick (u : Universe) (row col : Nat) (hr : row < u.height) (hc : col < u.width) :
    getCell (tick u) row col = nextCell (getCell u row col) (liveNeighborCount u row col) := by
  show ((List.range u.height).flatMap fun r => (List.range u.width).map fun c =>
      nextCell (getCell u r c) (liveNeighborCount u r c)).getD (row * u.width + col) Cell.Dead =
    nextCell (getCell u row col) (liveNeighborCount u row col)
  exact rowMajor_getD u.height u.width row col _ Cell.Dead hr hc

/-- `tick` produces a buffer of the same (row-major) size. -/
lemma tick_cells_length (u : Universe) : (tick u).cells.length = u.height * u.width := by
  show ((List.range u.height).flatMap fun r => (List.range u.width).map fun c =>
      nextCell (getCell u r c) (liveNeighborCount u r c)).length = u.height * u.width
  exact rowMajor_length u.height u.width _

/-- C1: for every well-formed grid, `tick` (the engine's `step()`) keeps the
dimensions and buffer size and sets each cell of the new generation from the
previous generation's snapshot by the B3/S23 rule — an alive cell survives
exactly with 2 or 3 live neighbors, a dead cell is born exactly with 3 — where
the neighbor count ranges over the 8 adjacent offsets with toroidal
wrap-around in the spec's sense (`-1` maps to `height - 1`, `height` maps to
`0`, and likewise for columns). -/
theorem C1_tick_is_synchronous_B3S23_with_toroidal_wrap
    (u : Universe) (row col : Nat) (h : u.wellFormed)
    (hr : row < u.height) (hc : col < u.width) :
    (tick u).width = u.width ∧ (tick u).height = u.height ∧
    (tick u).cells.length = u.cells.length ∧
    neighborOffsets.length = 8 ∧
    getCell (tick u) row col =
      nextCell (getCell u row col) (liveNeighborCountSpec u row col) := by
  obtain ⟨hw, hh, hlen⟩ := h
  refine ⟨rfl, rfl, ?_, rfl, ?_⟩
  · rw [tick_cells_length, hlen]
    ring
  · rw [getCell_tick u row col hr hc, liveNeighborCount_eq_spec u row col hw hh hr hc]

/-- C1 witness: the theorem applied to the 3×3 blinker at cell `(0, 1)`. -/
theorem C1_tick_witness :
    blinker.wellFormed ∧ 0 < blinker.height ∧ 1 < blinker.width ∧
    ((tick blinker).width = blinker.width ∧ (tick blinker).height = blinker.height ∧
     (tick blinker).cells.length = blinker.cells.length ∧
     neighborOffsets.length = 8 ∧
     getCell (tick blinker) 0 1 =
       nextCell (getCell blinker 0 1) (liveNeighborCountSpec blinker 0 1)) :=
  ⟨by decide, by decide, by decide,
   C1_tick_is_synchronous_B3S23_with_toroidal_wrap blinker 0 1 (by decide) (by decide) (by decide)⟩

/-- C7: `toggle_cell` on a well-formed grid flips exactly the addressed cell
and no other when the coordinates are in bounds, and fails with `OutOfBounds`
leaving the buffer identical whenever the row or column is out of range or
negative. -/
theorem C7_toggle_flips_exactly_one_cell_oob_fails_unchanged
    (u : Universe) (row col : Int) (h : u.wellFormed) :
    ((0 ≤ row ∧ row < (u.height : Int) ∧ 0 ≤ col ∧ col < (u.width : Int)) →
      ∃ u2, toggleCell u row col = Except.ok u2 ∧
        u2.width = u.width ∧ u2.height = u.height ∧
        u2.cells.length = u.cells.length ∧
        u2.cells.getD (row.toNat * u.width + col.toNat) Cell.Dead =
          cellFlip (u.cells.getD (row.toNat * u.width + col.toNat) Cell.Dead) ∧
        (∀ j, j < u.cells.length → j ≠ row.toNat * u.width + col.toNat →
          u2.cells.getD j Cell.Dead = u.cells.getD j Cell.Dead)) ∧
    ((row < 0 ∨ (u.height : Int) ≤ row ∨ col < 0 ∨ (u.width : Int) ≤ col) →
      toggleCell u row col = Except.error GolError.OutOfBounds) := by
  obtain ⟨hw, hh, hlen⟩ := h
  constructor
  · intro hin
    obtain ⟨h0r, h1r, h0c, h1c⟩ := hin
    have hidx : row.toNat * u.width + col.toNat < u.cells.length := by
      have h1 := rowMajor_idx_lt row.toNat col.toNat u.width u.height (by omega) (by omega)
      rw [hlen, Nat.mul_comm u.width u.height]
      exact h1
    refine ⟨{ u with cells := u.cells.set (row.toNat * u.width + col.toNat) (cellFlip (u.cells.getD (row.toNat * u.width + col.toNat) Cell.Dead)) }, ?_, rfl, rfl, ?_, ?_, ?_⟩
    · unfold toggleCell
      rw [if_pos ⟨h0r, h1r, h0c, h1c⟩]
    · exact List.length_set _ _ _
    · rw [List.getD_eq_getElem _ _ (by simpa using hidx)]
      rw [List.getElem_set_self]
    · intro j hj hne
      have hj2 : j < (u.cells.set (row.toNat * u.width + col.toNat)
          (cellFlip (u.cells.getD (row.toNat * u.width + col.toNat) Cell.Dead))).length := by
        simpa using hj
      rw [List.getD_eq_getElem _ _ hj2, List.getD_eq_getElem _ _ hj]
      exact List.getElem_set_of_ne (by omega) _ hj2
  · intro hout
    unfold toggleCell
    rw [if_neg (by omega)]

/-- C7 witness: the theorem applied to the concrete 2×2 grid at `(0, 1)`. -/
theorem C7_toggle_witness :
    u2x2.wellFormed ∧
    (((0 ≤ (0 : Int) ∧ (0 : Int) < (u2x2.height : Int) ∧ 0 ≤ (1 : Int) ∧ (1 : Int) < (u2x2.width : Int)) →
      ∃ u2, toggleCell u2x2 0 1 = Except.ok u2 ∧
        u2.width = u2x2.width ∧ u2.height = u2x2.height ∧
        u2.cells.length = u2x2.cells.length ∧
        u2.cells.getD ((0 : Int).toNat * u2x2.width + (1 : Int).toNat) Cell.Dead =
          cellFlip (u2x2.cells.getD ((0 : Int).toNat * u2x2.width + (1 : Int).toNat) Cell.Dead) ∧
        (∀ j, j < u2x2.cells.length → j ≠ (0 : Int).toNat * u2x2.width + (1 : Int).toNat →
          u2.cells.getD j Cell.Dead = u2x2.cells.getD j Cell.Dead)) ∧
    (((0 : Int) < 0 ∨ (u2x2.height : Int) ≤ (0 : Int) ∨ (1 : Int) < 0 ∨ (u2x2.width : Int) ≤ (1 : Int)) →
      toggleCell u2x2 0 1 = Except.error GolError.OutOfBounds)) :=
  ⟨by decide, C7_toggle_flips_exactly_one_cell_oob_fails_unchanged u2x2 0 1 (by decide)⟩

/-- C2: `drawCells` consumes the buffer in the specified wire format — it reads
a view of `width * height` entries, addresses cell `(row, column)` at flat
index `row * width + column`, and the rectangle drawn for each in-range cell is
at that cell's pixel position and filled with the dead color exactly when the
entry equals `Cell.Dead`, with the alive color otherwise. -/
theorem C2_drawCells_reads_rowMajor_view_and_colors_by_cell
    (w0 h0 : Nat) (mem : List Cell) (row col : Nat) (d : FillRect)
    (hlen : mem.length = w0 * h0) (hr : row < h0) (hc : col < w0) :
    (readCellsView mem (w0 * h0)).length = w0 * h0 ∧
    (drawCellsRects w0 h0 (readCellsView mem (w0 * h0))).length = w0 * h0 ∧
    (drawCellsRects w0 h0 (readCellsView mem (w0 * h0))).getD (getIndex w0 row col) d =
      { x := col * (CELL_SIZE + 1) + 1, y := row * (CELL_SIZE + 1) + 1,
        w := CELL_SIZE, h := CELL_SIZE,
        fillStyle := if mem.getD (getIndex w0 row col) Cell.Dead = Cell.Dead
                     then DEAD_COLOR else ALIVE_COLOR } := by
  have hview : readCellsView mem (w0 * h0) = mem := by
    unfold readCellsView
    rw [List.take_of_length_le (by omega)]
  refine ⟨by rw [hview, hlen], ?_, ?_⟩
  · show ((List.range h0).flatMap fun r => (List.range w0).map fun c =>
        ({ x := c * (CELL_SIZE + 1) + 1, y := r * (CELL_SIZE + 1) + 1, w := CELL_SIZE,
           h := CELL_SIZE,
           fillStyle := if (readCellsView mem (w0 * h0)).getD (getIndex w0 r c) Cell.Dead = Cell.Dead then DEAD_COLOR else ALIVE_COLOR } : FillRect)).length = w0 * h0
    rw [rowMajor_length]
    ring
  · show ((List.range h0).flatMap fun r => (List.range w0).map fun c =>
        ({ x := c * (CELL_SIZE + 1) + 1, y := r * (CELL_SIZE + 1) + 1, w := CELL_SIZE,
           h := CELL_SIZE,
           fillStyle := if (readCellsView mem (w0 * h0)).getD (getIndex w0 r c) Cell.Dead = Cell.Dead then DEAD_COLOR else ALIVE_COLOR } : FillRect)).getD (getIndex w0 row col) d = _
    have := rowMajor_getD h0 w0 row col (fun r c =>
      ({ x := c * (CELL_SIZE + 1) + 1, y := r * (CELL_SIZE + 1) + 1, w := CELL_SIZE,
         h := CELL_SIZE,
         fillStyle := if (readCellsView mem (w0 * h0)).getD (getIndex w0 r c) Cell.Dead = Cell.Dead then DEAD_COLOR else ALIVE_COLOR } : FillRect)) d hr hc
    rw [show getIndex w0 row col = row * w0 + col from rfl, this, hview]
    rfl

/-- C2 witness: the theorem applied to a concrete 2×2 buffer at `(1, 0)`. -/
theorem C2_drawCells_witness :
    ([Cell.Dead, Cell.Alive, Cell.Alive, Cell.Dead] : List Cell).length = 2 * 2 ∧
    ((readCellsView [Cell.Dead, Cell.Alive, Cell.Alive, Cell.Dead] (2 * 2)).length = 2 * 2 ∧
     (drawCellsRects 2 2 (readCellsView [Cell.Dead, Cell.Alive, Cell.Alive, Cell.Dead] (2 * 2))).length = 2 * 2 ∧
     (drawCellsRects 2 2 (readCellsView [Cell.Dead, Cell.Alive, Cell.Alive, Cell.Dead] (2 * 2))).getD (getIndex 2 1 0)
         { x := 0, y := 0, w := 0, h := 0, fillStyle := "" } =
       { x := 0 * (CELL_SIZE + 1) + 1, y := 1 * (CELL_SIZE + 1) + 1,
         w := CELL_SIZE, h := CELL_SIZE,
         fillStyle := if ([Cell.Dead, Cell.Alive, Cell.Alive, Cell.Dead] : List Cell).getD (getIndex 2 1 0) Cell.Dead = Cell.Dead
                      then DEAD_COLOR else ALIVE_COLOR }) :=
  ⟨by decide,
   C2_drawCells_reads_rowMajor_view_and_colors_by_cell 2 2
     [Cell.Dead, Cell.Alive, Cell.Alive, Cell.Dead] 1 0
     { x := 0, y := 0, w := 0, h := 0, fillStyle := "" }
     (by decide) (by decide) (by decide)⟩

/-- Draw events never occur inside the tick batch of a frame. -/
lemma filter_isDraw_replicate_tick (n : Nat) :
    (List.replicate n Event.tickCall).filter isDrawEvent = [] := by
  induction n with
  | zero => rfl
  | succ k ih => simp [List.replicate_succ, List.filter_cons, isDrawEvent, ih]

/-- C3: on every animation frame the render loop calls `tick()` exactly
`ticksPerFrame` times — the slider value, which starts at 1 and is replaced by
the slider handler — before any drawing, and then draws the grid and the
post-batch cells exactly once each. -/
theorem C3_renderLoop_runs_tick_batch_then_one_redraw
    (st : DriverState) (frameId : Nat) (u0 : Universe) (v : Nat) :
    (renderLoop frameId st).1.univ = tick^[st.ticksPerFrame] st.univ ∧
    (renderLoop frameId st).2 =
      List.replicate st.ticksPerFrame Event.tickCall ++
        [Event.drawGridCall, Event.drawCellsCall (tick^[st.ticksPerFrame] st.univ),
         Event.requestFrameCall] ∧
    (renderLoop frameId st).2.filter isDrawEvent =
      [Event.drawGridCall, Event.drawCellsCall (tick^[st.ticksPerFrame] st.univ)] ∧
    (initialState u0).ticksPerFrame = 1 ∧
    (updateTicks v st).ticksPerFrame = v := by
  refine ⟨rfl, rfl, ?_, rfl, rfl⟩
  show (List.replicate st.ticksPerFrame Event.tickCall ++
      [Event.drawGridCall, Event.drawCellsCall (tick^[st.ticksPerFrame] st.univ),
       Event.requestFrameCall]).filter isDrawEvent = _
  rw [List.filter_append, filter_isDraw_replicate_tick]
  simp [isDrawEvent]

/-- C4: the reset handler installs the freshly constructed random universe and
the kill handler applies `kill_universe` (the clear operation: every cell Dead,
dimensions unchanged) to the current grid; in both handlers the grid and cell
redraw follows the action before the handler returns. -/
theorem C4_reset_randomizes_kill_clears_both_then_redraw
    (st : DriverState) (fresh : Universe) :
    (resetClick fresh st).1.univ = fresh ∧
    (resetClick fresh st).2 =
      [Event.randomUniverseCall, Event.drawGridCall, Event.drawCellsCall fresh] ∧
    (killClick st).1.univ = killUniverse st.univ ∧
    (killClick st).2 =
      [Event.setTextCall playGlyph, Event.cancelFrameCall st.animationId,
       Event.killCall, Event.drawGridCall, Event.drawCellsCall (killUniverse st.univ)] ∧
    (killUniverse st.univ).width = st.univ.width ∧
    (killUniverse st.univ).height = st.univ.height ∧
    (killUniverse st.univ).cells.length = st.univ.cells.length ∧
    (∀ c ∈ (killUniverse st.univ).cells, c = Cell.Dead) := by
  refine ⟨rfl, rfl, rfl, rfl, rfl, rfl, List.length_map _ _, ?_⟩
  intro c hc
  simp only [killUniverse, List.mem_map] at hc
  obtain ⟨_, _, hcd⟩ := hc
  exact hcd.symm

/-- C5: every mutating path of the driver — the per-frame tick batch, a canvas
click toggle, a reset, and a kill-all — performs all of its universe mutations
before any draw call, and the cells drawn are exactly the handler's final
universe, so a draw never observes an intermediate state. -/
theorem C5_draws_always_follow_completed_mutations
    (st : DriverState) (frameId : Nat) (fresh : Universe) (w0 h0 : Nat)
    (clientX clientY rectLeft rectTop rectW rectH : ℚ) :
    mutationsPrecedeDraws (renderLoop frameId st).2 ∧
    Event.drawCellsCall ((renderLoop frameId st).1.univ) ∈ (renderLoop frameId st).2 ∧
    mutationsPrecedeDraws (canvasClick w0 h0 clientX clientY rectLeft rectTop rectW rectH st).2 ∧
    Event.drawCellsCall ((canvasClick w0 h0 clientX clientY rectLeft rectTop rectW rectH st).1.univ) ∈
      (canvasClick w0 h0 clientX clientY rectLeft rectTop rectW rectH st).2 ∧
    mutationsPrecedeDraws (resetClick fresh st).2 ∧
    Event.drawCellsCall ((resetClick fresh st).1.univ) ∈ (resetClick fresh st).2 ∧
    mutationsPrecedeDraws (killClick st).2 ∧
    Event.drawCellsCall ((killClick st).1.univ) ∈ (killClick st).2 := by
  refine ⟨?_, ?_, ?_, ?_, ?_, ?_, ?_, ?_⟩
  · refine ⟨List.replicate st.ticksPerFrame Event.tickCall,
      [Event.drawGridCall, Event.drawCellsCall (tick^[st.ticksPerFrame] st.univ),
       Event.requestFrameCall], rfl, ?_, ?_⟩
    · intro e he
      rw [List.eq_of_mem_replicate he]
      rfl
    · intro e he
      simp only [List.mem_cons, List.not_mem_nil, or_false] at he
      rcases he with h1 | h1 | h1 <;> rw [h1] <;> rfl
  · show Event.drawCellsCall (tick^[st.ticksPerFrame] st.univ) ∈
      List.replicate st.ticksPerFrame Event.tickCall ++
        [Event.drawGridCall, Event.drawCellsCall (tick^[st.ticksPerFrame] st.univ),
         Event.requestFrameCall]
    rw [List.mem_append]
    right
    simp
  · refine ⟨[Event.toggleCall (clickRow h0 (canvasTopOf h0 clientY rectTop rectH))
        (clickCol w0 (canvasLeftOf w0 clientX rectLeft rectW))],
      [Event.drawGridCall, Event.drawCellsCall (applyToggle st.univ
        (clickRow h0 (canvasTopOf h0 clientY rectTop rectH))
        (clickCol w0 (canvasLeftOf w0 clientX rectLeft rectW)))], rfl, ?_, ?_⟩
    · intro e he
      simp only [List.mem_cons, List.not_mem_nil, or_false] at he
      rw [he]
      rfl
    · intro e he
      simp only [List.mem_cons, List.not_mem_nil, or_false] at he
      rcases he with h1 | h1 <;> rw [h1] <;> rfl
  · simp [canvasClick]
  · refine ⟨[Event.randomUniverseCall],
      [Event.drawGridCall, Event.drawCellsCall fresh], rfl, ?_, ?_⟩
    · intro e he
      simp only [List.mem_cons, List.not_mem_nil, or_false] at he
      rw [he]
      rfl
    · intro e he
      simp only [List.mem_cons, List.not_mem_nil, or_false] at he
      rcases he with h1 | h1 <;> rw [h1] <;> rfl
  · show Event.drawCellsCall fresh ∈
      [Event.randomUniverseCall, Event.drawGridCall, Event.drawCellsCall fresh]
    simp
  · refine ⟨[Event.setTextCall playGlyph, Event.cancelFrameCall st.animationId, Event.killCall],
      [Event.drawGridCall, Event.drawCellsCall (killUniverse st.univ)], rfl, ?_, ?_⟩
    · intro e he
      simp only [List.mem_cons, List.not_mem_nil, or_false] at he
      rcases he with h1 | h1 | h1 <;> rw [h1] <;> rfl
    · intro e he
      simp only [List.mem_cons, List.not_mem_nil, or_false] at he
      rcases he with h1 | h1 <;> rw [h1] <;> rfl
  · show Event.drawCellsCall (killUniverse st.univ) ∈
      [Event.setTextCall playGlyph, Event.cancelFrameCall st.animationId,
       Event.killCall, Event.drawGridCall, Event.drawCellsCall (killUniverse st.univ)]
    simp

/-- C9: the kill-all handler pauses before killing — after it returns the
animation id is cleared, `isPaused` holds, the button shows the play glyph,
and the cancel of the pending frame precedes the `kill_universe` call in its
trace — while the reset handler leaves the play/pause state untouched. -/
theorem C9_kill_pauses_first_reset_keeps_play_state
    (st : DriverState) (fresh : Universe) :
    (killClick st).1.animationId = Option.none ∧
    isPaused (killClick st).1 = true ∧
    (killClick st).1.playPauseText = playGlyph ∧
    (killClick st).2 =
      [Event.setTextCall playGlyph, Event.cancelFrameCall st.animationId,
       Event.killCall, Event.drawGridCall, Event.drawCellsCall (killUniverse st.univ)] ∧
    (resetClick fresh st).1.animationId = st.animationId ∧
    (resetClick fresh st).1.playPauseText = st.playPauseText :=
  ⟨rfl, rfl, rfl, rfl, rfl, rfl⟩

/-- C8: for any click whose canvas-relative coordinates are non-negative, the
row and column the handler passes to `toggle_cell` are clamped into
`[0, height-1]` and `[0, width-1]`, so the driver never issues an
out-of-bounds toggle. -/
theorem C8_click_row_col_always_in_grid_bounds
    (w0 h0 : Nat) (clientX clientY rectLeft rectTop rectW rectH : ℚ) (st : DriverState)
    (hw : 1 ≤ w0) (hh : 1 ≤ h0)
    (hx : rectLeft ≤ clientX) (hy : rectTop ≤ clientY)
    (hrw : 0 < rectW) (hrh : 0 < rectH) :
    0 ≤ clickRow h0 (canvasTopOf h0 clientY rectTop rectH) ∧
    clickRow h0 (canvasTopOf h0 clientY rectTop rectH) ≤ (h0 : Int) - 1 ∧
    0 ≤ clickCol w0 (canvasLeftOf w0 clientX rectLeft rectW) ∧
    clickCol w0 (canvasLeftOf w0 clientX rectLeft rectW) ≤ (w0 : Int) - 1 ∧
    (canvasClick w0 h0 clientX clientY rectLeft rectTop rectW rectH st).2.head? =
      some (Event.toggleCall (clickRow h0 (canvasTopOf h0 clientY rectTop rectH))
        (clickCol w0 (canvasLeftOf w0 clientX rectLeft rectW))) := by
  have hpitch : (0 : ℚ) < (CELL_SIZE : ℚ) + 1 := by positivity
  have htop : 0 ≤ canvasTopOf h0 clientY rectTop rectH := by
    unfold canvasTopOf scaleYOf
    exact mul_nonneg (by linarith) (div_nonneg (Nat.cast_nonneg _) hrh.le)
  have hleft : 0 ≤ canvasLeftOf w0 clientX rectLeft rectW := by
    unfold canvasLeftOf scaleXOf
    exact mul_nonneg (by linarith) (div_nonneg (Nat.cast_nonneg _) hrw.le)
  have hfr : 0 ≤ ((canvasTopOf h0 clientY rectTop rectH) / ((CELL_SIZE : ℚ) + 1)).floor := by
    apply Rat.le_floor.2
    push_cast
    exact div_nonneg htop hpitch.le
  have hfc : 0 ≤ ((canvasLeftOf w0 clientX rectLeft rectW) / ((CELL_SIZE : ℚ) + 1)).floor := by
    apply Rat.le_floor.2
    push_cast
    exact div_nonneg hleft hpitch.le
  refine ⟨?_, ?_, ?_, ?_, rfl⟩
  · exact le_min hfr (by omega)
  · exact min_le_right _ _
  · exact le_min hfc (by omega)
  · exact min_le_right _ _

/-- C8 witness: the theorem applied to a concrete click at client coordinates
`(10, 10)` on a 64×64 grid with an unscaled 385×385 bounding rectangle. -/
theorem C8_click_bounds_witness :
    (1 ≤ 64 ∧ (0 : ℚ) ≤ 10 ∧ (0 : ℚ) < 385) ∧
    (0 ≤ clickRow 64 (canvasTopOf 64 10 0 385) ∧
     clickRow 64 (canvasTopOf 64 10 0 385) ≤ (64 : Int) - 1 ∧
     0 ≤ clickCol 64 (canvasLeftOf 64 10 0 385) ∧
     clickCol 64 (canvasLeftOf 64 10 0 385) ≤ (64 : Int) - 1 ∧
     (canvasClick 64 64 10 10 0 0 385 385 st0).2.head? =
       some (Event.toggleCall (clickRow 64 (canvasTopOf 64 10 0 385))
         (clickCol 64 (canvasLeftOf 64 10 0 385)))) :=
  ⟨⟨by decide, by decide, by decide⟩,
   C8_click_row_col_always_in_grid_bounds 64 64 10 10 0 0 385 385 st0
     (by decide) (by decide) (by decide) (by decide) (by decide) (by decide)⟩

/-- C6 counterexample: a click on the canvas's bottom-right border pixel of a
64×64 grid (canvas coordinate 384 with pitch 6) has scale-and-divide
translation `(64, 64)`, but the handler toggles `(63, 63)` because of the
clamp — so the toggle is not on the cell given by scaling and dividing alone. -/
theorem C6_click_translation_counterexample :
    divRowOf 64 384 0 385 = 64 ∧
    divColOf 64 384 0 385 = 64 ∧
    Event.toggleCall (divRowOf 64 384 0 385) (divColOf 64 384 0 385) ∉
      (canvasClick 64 64 384 384 0 0 385 385 st0).2 ∧
    Event.toggleCall 63 63 ∈ (canvasClick 64 64 384 384 0 0 385 385 st0).2 := by
  have htop : canvasTopOf 64 (384 : ℚ) 0 385 = 384 := by
    unfold canvasTopOf scaleYOf canvasHeightPx CELL_SIZE
    norm_num
  have hleft : canvasLeftOf 64 (384 : ℚ) 0 385 = 384 := by
    unfold canvasLeftOf scaleXOf canvasWidthPx CELL_SIZE
    norm_num
  have hq : (384 : ℚ) / ((CELL_SIZE : ℚ) + 1) = 64 := by
    unfold CELL_SIZE
    norm_num
  have hdr : divRowOf 64 384 0 385 = 64 := by
    unfold divRowOf
    rw [htop, hq]
    decide
  have hdc : divColOf 64 384 0 385 = 64 := by
    unfold divColOf
    rw [hleft, hq]
    decide
  have hrow : clickRow 64 (canvasTopOf 64 (384 : ℚ) 0 385) = 63 := by
    unfold clickRow
    rw [htop, hq]
    decide
  have hcol : clickCol 64 (canvasLeftOf 64 (384 : ℚ) 0 385) = 63 := by
    unfold clickCol
    rw [hleft, hq]
    decide
  have htrace : (canvasClick 64 64 384 384 0 0 385 385 st0).2 =
      [Event.toggleCall 63 63, Event.drawGridCall,
       Event.drawCellsCall (applyToggle st0.univ 63 63)] := by
    simp only [canvasClick, hrow, hcol]
  refine ⟨hdr, hdc, ?_, ?_⟩
  · rw [hdr, hdc, htrace]
    decide
  · rw [htrace]
    decide

/-- C6 amended: for every canvas click the handler translates the pixel
coordinates by scaling to canvas coordinates, dividing by the cell pitch
`CELL_SIZE + 1`, and clamping the result to `[0, height-1]` × `[0, width-1]`;
it calls toggle exactly once, on that clamped cell, and then redraws the grid
and the cells. -/
theorem C6_amended_click_toggles_clamped_cell_then_redraws
    (w0 h0 : Nat) (clientX clientY rectLeft rectTop rectW rectH : ℚ) (st : DriverState) :
    clickRow h0 (canvasTopOf h0 clientY rectTop rectH) =
      min (divRowOf h0 clientY rectTop rectH) ((h0 : Int) - 1) ∧
    clickCol w0 (canvasLeftOf w0 clientX rectLeft rectW) =
      min (divColOf w0 clientX rectLeft rectW) ((w0 : Int) - 1) ∧
    (canvasClick w0 h0 clientX clientY rectLeft rectTop rectW rectH st).2 =
      [Event.toggleCall (clickRow h0 (canvasTopOf h0 clientY rectTop rectH))
         (clickCol w0 (canvasLeftOf w0 clientX rectLeft rectW)),
       Event.drawGridCall,
       Event.drawCellsCall (applyToggle st.univ
         (clickRow h0 (canvasTopOf h0 clientY rectTop rectH))
         (clickCol w0 (canvasLeftOf w0 clientX rectLeft rectW)))] ∧
    (canvasClick w0 h0 clientX clientY rectLeft rectTop rectW rectH st).1.univ =
      applyToggle st.univ (clickRow h0 (canvasTopOf h0 clientY rectTop rectH))
        (clickCol w0 (canvasLeftOf w0 clientX rectLeft rectW)) :=
  ⟨rfl, rfl, rfl, rfl⟩

/-- C10: the dimensions are queried from the initial universe exactly once at
startup; no handler trace ever queries `width()` or `height()` again; the
cells drawn by `drawCells` depend only on the current buffer and the captured
`w0`, `h0` — a replacement universe's own dimension fields are never
consulted and the number of drawn cell rectangles is always `w0 * h0` — and
the canvas dimensions come from the captured constants. -/
theorem C10_dimensions_read_once_at_startup_and_reused
    (u0 fresh : Universe) (st : DriverState) (frameId w0 h0 : Nat)
    (clientX clientY rectLeft rectTop rectW rectH : ℚ) :
    (startup u0).1 = (u0.width, u0.height) ∧
    (startup u0).2 = [Event.widthQueryCall, Event.heightQueryCall] ∧
    Event.widthQueryCall ∉ (renderLoop frameId st).2 ∧
    Event.heightQueryCall ∉ (renderLoop frameId st).2 ∧
    Event.widthQueryCall ∉ (canvasClick w0 h0 clientX clientY rectLeft rectTop rectW rectH st).2 ∧
    Event.heightQueryCall ∉ (canvasClick w0 h0 clientX clientY rectLeft rectTop rectW rectH st).2 ∧
    Event.widthQueryCall ∉ (resetClick fresh st).2 ∧
    Event.heightQueryCall ∉ (resetClick fresh st).2 ∧
    Event.widthQueryCall ∉ (killClick st).2 ∧
    Event.heightQueryCall ∉ (killClick st).2 ∧
    (∀ dw dh : Nat,
      drawCellsOf w0 h0 { width := dw, height := dh, cells := fresh.cells } =
        drawCellsOf w0 h0 fresh) ∧
    (drawCellsOf w0 h0 fresh).length = w0 * h0 ∧
    canvasWidthPx w0 = (CELL_SIZE + 1) * w0 + 1 ∧
    canvasHeightPx h0 = (CELL_SIZE + 1) * h0 + 1 := by
  refine ⟨rfl, rfl, ?_, ?_, ?_, ?_, ?_, ?_, ?_, ?_, fun dw dh => rfl, ?_, rfl, rfl⟩
  · simp [renderLoop, List.mem_replicate]
  · simp [renderLoop, List.mem_replicate]
  · simp [canvasClick]
  · simp [canvasClick]
  · simp [resetClick]
  · simp [resetClick]
  · simp [killClick, pauseOp]
  · simp [killClick, pauseOp]
  · show (drawCellsRects w0 h0 (readCellsView fresh.cells (w0 * h0))).length = w0 * h0
    show ((List.range h0).flatMap fun r => (List.range w0).map fun c =>
        ({ x := c * (CELL_SIZE + 1) + 1, y := r * (CELL_SIZE + 1) + 1, w := CELL_SIZE,
           h := CELL_SIZE,
           fillStyle := if (readCellsView fresh.cells (w0 * h0)).getD (getIndex w0 r c) Cell.Dead = Cell.Dead then DEAD_COLOR else ALIVE_COLOR } : FillRect)).length = w0 * h0
    rw [rowMajor_length]
    ring
